import Mathlib

/-!
Verification of the jsonstreamer incremental JSON parser
(src/jsonstreamer/jsonstreamer.py together with the `again` event and
state-machine framework in src/pyutils).

The embedding mirrors the source layer by layer:
  * `tokenize`            - `_Tokenizer.consume`, one token per character
  * `TASt` / `taStep`     - `_TextAccumulator._listener`
  * `LState` / `smNext` / `smIgnores`
                          - the transition table built in
                            `_Lexer._setup_state_machine`
  * `afterChange`         - `_Lexer._on_after_state_change`
  * `lexChar`/`procChars`/`lexConsume`/`lexCloseFn`
                          - `_Lexer.consume` and `_Lexer.close`
  * `jsOnLex` ...         - `JSONStreamer` event handlers
  * `osOnStr` ...         - `ObjectStreamer` event handlers
  * `v2OnLex` ...         - the v2 safety-limit streamer, modelled from the
                            spec because its implementation is absent from src

In the Python source the two catch-all listeners of the tokenizer (the
text accumulator and the lexer state machine) are stored in an unordered
set.  The embedding runs the accumulator first; on every input on which the
source does not raise, the two orders produce the same accumulator content
at each pop point, because no token that triggers a pop is ever appendable
at that moment (pops fire on rbrace/rsquare/comma/colon outside strings,
none of which is in the active criteria list there).

Errors of all layers (state-machine faults, invalid literals, IndexError
on empty stacks, AttributeError after close, and the modelled safety
limits) are collapsed into one type `PErr`; every kind of Python exception
raised out of `consume`/`close` is a distinct constructor.
-/

namespace JsonStreamer

/-- One unified error type for every exception the pipeline can raise. -/
inductive PErr where
  /-- RuntimeError from `_Lexer._on_error` / `State.handle_fault`:
  the token has no transition and is not ignored in the current state. -/
  | smFault (state : String) (event : String)
  /-- RuntimeError "Invalid Literal" from `_on_after_state_change`. -/
  | invalidLiteral (lit : List Char)
  /-- IndexError from popping/peeking an empty Python list. -/
  | indexError
  /-- AssertionError in `JSONStreamer._on_literal`: an object key that is
  not a STRING literal. -/
  | keyAssert
  /-- TypeError/AttributeError from indexing a list with a string key or
  calling `append` on a dict in `ObjectStreamer`. -/
  | typeError
  /-- AttributeError from using a streamer after `close` set its
  internals to None. -/
  | attrError
  /-- Modelled from the spec: depth-limit-exceeded error of the v2
  streamer. -/
  | depthExceeded
  /-- Modelled from the spec: string-size-limit-exceeded error of the v2
  streamer. -/
  | sizeExceeded
deriving DecidableEq, Repr

/-- Token alphabet of `_Tokenizer`: the ten single-character tokens plus
the generic `char` class. -/
inductive TokName where
  | lbrace | rbrace | lsquare | rsquare | comma | colon
  | dblquote | whitespace | newline | backslash | char
deriving DecidableEq, Repr

/-- `_Tokenizer.consume`, per character: first matching entry of
`token_ids`, else the generic `char` token.  The payload of every token is
the character itself. -/
def tokenize (c : Char) : TokName :=
  if c = '{' then .lbrace
  else if c = '}' then .rbrace
  else if c = '[' then .lsquare
  else if c = ']' then .rsquare
  else if c = ',' then .comma
  else if c = ':' then .colon
  else if c = '\"' then .dblquote
  else if c = ' ' then .whitespace
  else if c = '\n' then .newline
  else if c = '\\' then .backslash
  else .char

/-- State of `_TextAccumulator`: the buffer, the `_escaping` flag and the
`_string_start` flag (which selects the active criteria list). -/
structure TASt where
  buf : List Char
  escaping : Bool
  inStr : Bool
deriving DecidableEq, Repr

/-- The active criteria list of `_TextAccumulator`.  When inside a string
the source list is
`['char','whitespace','dblquote','lsquare','rsqaure','comma','colon','lbrace','rbrace']`;
note that `rsquare` is misspelled `'rsqaure'` there, so an `rsquare` token
is never matched by the in-string criteria.  The `newline` token appears
in neither list. -/
def taCriteria (inStr : Bool) (t : TokName) : Bool :=
  match t with
  | .char | .whitespace | .dblquote => true
  | .lsquare | .comma | .colon | .lbrace | .rbrace => inStr
  | _ => false

/-- `_TextAccumulator._listener`.  The dblquote toggle updates the
criteria before the membership test, exactly as in the source. -/
def taStep (ta : TASt) (t : TokName) (c : Char) : TASt :=
  let ta1 :=
    if t = .dblquote && !ta.escaping then { ta with inStr := !ta.inStr }
    else ta
  if taCriteria ta1.inStr t then
    if ta1.escaping then
      { ta1 with buf := ta1.buf ++ ['\\', c], escaping := false }
    else
      { ta1 with buf := ta1.buf ++ [c] }
  else if t = .backslash then
    if ta1.escaping then
      { ta1 with buf := ta1.buf ++ ['\\', '\\'], escaping := false }
    else
      { ta1 with escaping := true }
  else if ta1.escaping then
    { ta1 with buf := ta1.buf ++ ['\\', c], escaping := false }
  else ta1

/-- The states of the `_Lexer` state machine.  The source also creates a
`key_escaping` state but registers no transition into it, so it is
unreachable and omitted here. -/
inductive LState where
  | new | docStart | docEnd
  | objectStart | objectEnd | arrayStart | arrayEnd
  | stringStart | stringEnd | stringEscaping
  | literal | more
deriving DecidableEq, Repr

/-- Events consumed by the state machine: the control events fired by
`consume`/`close`/`_on_after_state_change` plus the tokenizer tokens. -/
inductive SMEvent where
  | start | close | reset
  | tok (t : TokName)
deriving DecidableEq, Repr

/-- The transition table registered by `_setup_state_machine` via
`on`/`loops` calls.  `none` means no transition is registered (the event
is then either ignored or a fault). -/
def smNext (s : LState) (e : SMEvent) : Option LState :=
  match s, e with
  | .new, .start => some .docStart
  | .new, .close => some .docEnd
  | .docStart, .tok .lbrace => some .objectStart
  | .docStart, .tok .lsquare => some .arrayStart
  | .docEnd, .reset => some .new
  | .objectStart, .tok .lbrace => some .objectStart
  | .objectStart, .tok .rbrace => some .objectEnd
  | .objectStart, .tok .dblquote => some .stringStart
  | .objectEnd, .close => some .docEnd
  | .objectEnd, .tok .lbrace => some .objectEnd
  | .objectEnd, .tok .rbrace => some .objectEnd
  | .objectEnd, .tok .rsquare => some .arrayEnd
  | .objectEnd, .tok .comma => some .more
  | .arrayStart, .tok .lbrace => some .objectStart
  | .arrayStart, .tok .rsquare => some .arrayEnd
  | .arrayStart, .tok .lsquare => some .arrayStart
  | .arrayStart, .tok .char => some .literal
  | .arrayStart, .tok .dblquote => some .stringStart
  | .arrayEnd, .close => some .docEnd
  | .arrayEnd, .tok .comma => some .more
  | .arrayEnd, .tok .rbrace => some .objectEnd
  | .arrayEnd, .tok .rsquare => some .arrayEnd
  | .stringStart, .tok .char => some .stringStart
  | .stringStart, .tok .comma => some .stringStart
  | .stringStart, .tok .colon => some .stringStart
  | .stringStart, .tok .whitespace => some .stringStart
  | .stringStart, .tok .newline => some .stringStart
  | .stringStart, .tok .lbrace => some .stringStart
  | .stringStart, .tok .rbrace => some .stringStart
  | .stringStart, .tok .lsquare => some .stringStart
  | .stringStart, .tok .rsquare => some .stringStart
  | .stringStart, .tok .backslash => some .stringEscaping
  | .stringStart, .tok .dblquote => some .stringEnd
  | .stringEscaping, .tok .char => some .stringStart
  | .stringEscaping, .tok .dblquote => some .stringStart
  | .stringEscaping, .tok .backslash => some .stringStart
  | .stringEnd, .tok .rbrace => some .objectEnd
  | .stringEnd, .tok .rsquare => some .arrayEnd
  | .stringEnd, .tok .comma => some .more
  | .stringEnd, .tok .colon => some .more
  | .literal, .tok .char => some .literal
  | .literal, .tok .rbrace => some .objectEnd
  | .literal, .tok .rsquare => some .arrayEnd
  | .literal, .tok .comma => some .more
  | .more, .tok .lbrace => some .objectStart
  | .more, .tok .lsquare => some .arrayStart
  | .more, .tok .char => some .literal
  | .more, .tok .dblquote => some .stringStart
  | _, _ => none

/-- The `ignores` registrations.  Every (state, event) pair with neither
a transition nor an ignore raises a RuntimeError (explicitly `faulty` or
via the `error` listener for undeclared pairs - both raise). -/
def smIgnores (s : LState) (e : SMEvent) : Bool :=
  match s, e with
  | .new, .tok .newline | .new, .tok .whitespace => true
  | .docStart, .tok .newline | .docStart, .tok .whitespace => true
  | .objectStart, .tok .newline | .objectStart, .tok .whitespace => true
  | .objectEnd, .tok .whitespace | .objectEnd, .tok .newline => true
  | .arrayStart, .tok .newline | .arrayStart, .tok .whitespace => true
  | .arrayEnd, .tok .whitespace | .arrayEnd, .tok .newline => true
  | .stringEnd, .tok .whitespace | .stringEnd, .tok .newline => true
  | .literal, .tok .newline | .literal, .tok .whitespace => true
  | .more, .tok .whitespace | .more, .tok .newline => true
  | _, _ => false

/-- The whitespace set of Python `str.strip()` for ASCII text. -/
def isPySpace (c : Char) : Bool :=
  c = ' ' || c = '\t' || c = '\n' || c = '\r' || c = '\x0b' || c = '\x0c'

/-- Drop trailing characters satisfying `p`. -/
def dropTrail (p : Char → Bool) (l : List Char) : List Char :=
  (l.reverse.dropWhile p).reverse

/-- Python `str.strip()` (for ASCII input). -/
def pyStrip (l : List Char) : List Char :=
  dropTrail isPySpace (l.dropWhile isPySpace)

/-- `text.strip()` followed by `text[1:-1]`: used to peel the quotes off
an accumulated string literal. -/
def stripQuotes (l : List Char) : List Char :=
  ((pyStrip l).drop 1).dropLast

/-- Split a list at the first character satisfying `p`; `none` when no
character does. -/
def splitFirst (p : Char → Bool) : List Char → List Char × Option (List Char)
  | [] => ([], none)
  | c :: r =>
    if p c then ([], some r)
    else
      let (a, b) := splitFirst p r
      (c :: a, b)

/-- Drop one leading sign character. -/
def stripSign : List Char → List Char
  | [] => []
  | c :: r => if c = '-' || c = '+' then r else c :: r

/-- All characters are ASCII digits. -/
def allDigits (l : List Char) : Bool := l.all (·.isDigit)

/-- The mantissa body of the number pattern: `[0-9]*\.?[0-9]+`. -/
def mantBody (m : List Char) : Bool :=
  match splitFirst (· = '.') m with
  | (_, none) => decide (m ≠ []) && allDigits m
  | (pre, some post) => allDigits pre && decide (post ≠ []) && allDigits post

/-- `re.fullmatch` against `_Lexer._number_pattern`, the regex
`[-+]?[0-9]*\.?[0-9]+([eE][-+]?[0-9]+)?` (transcribed as an executable
matcher; the mantissa may contain no `e`, so splitting at the first
`e`/`E` is exact). -/
def numMatch (cs : List Char) : Bool :=
  let (mant, ex) := splitFirst (fun c => c = 'e' || c = 'E') cs
  let mOK := mantBody (stripSign mant)
  match ex with
  | none => mOK
  | some e =>
    let e1 := stripSign e
    mOK && decide (e1 ≠ []) && allDigits e1

/-- Numeric value of a digit string. -/
def digitsVal (l : List Char) : Nat :=
  l.foldl (fun a c => a * 10 + (c.toNat - '0'.toNat)) 0

/-- Python `int(literal)` restricted to strings that already match the
number pattern: it succeeds exactly on `sign? digits+` (a matched string
containing `.`/`e`/`E` raises ValueError there, because a digit is
required after the dot and the exponent marker is not numeric). -/
def intParse (cs : List Char) : Option Int :=
  let m := stripSign cs
  if decide (m ≠ []) && allDigits m then
    some (if cs.head? = some '-' then -(digitsVal m : Int) else (digitsVal m : Int))
  else none

/-- Events fired by `_Lexer`: the typed LITERAL events and the six
structural state-entry events.  A float value is kept as its raw text;
the source calls Python `float`, whose numeric value no claim needs. -/
inductive LexEv where
  | docStart | docEnd | objectStart | objectEnd | arrayStart | arrayEnd
  | str (s : List Char)
  | numInt (i : Int)
  | numFloat (raw : List Char)
  | boolLit (b : Bool)
  | nullLit
deriving DecidableEq, Repr

/-- The literal-closing logic of `_on_after_state_change`: number pattern
first (int, falling back to float), then `true`/`false`/`null`, else the
"Invalid Literal" RuntimeError (`none`). -/
def parseLit (lit : List Char) : Option LexEv :=
  if numMatch lit then
    some (match intParse lit with
          | some i => .numInt i
          | none => .numFloat lit)
  else if lit = "true".data then some (.boolLit true)
  else if lit = "false".data then some (.boolLit false)
  else if lit = "null".data then some (.nullLit)
  else none

/-- The structural event fired on entering a state
(`new_state.equals(doc_start, doc_end, object_start, object_end,
array_start, array_end)`). -/
def structEv : LState → List LexEv
  | .docStart => [.docStart]
  | .docEnd => [.docEnd]
  | .objectStart => [.objectStart]
  | .objectEnd => [.objectEnd]
  | .arrayStart => [.arrayStart]
  | .arrayEnd => [.arrayEnd]
  | _ => []

/-- Full `_Lexer` instance state: `_started`, the closed/cleared flag
(`close` sets the tokenizer and machine to None), the machine's current
state and the accumulator. -/
structure LexSt where
  started : Bool
  closed : Bool
  sm : LState
  ta : TASt
deriving DecidableEq, Repr

/-- A fresh `_Lexer()`. -/
def lexInit : LexSt :=
  { started := false, closed := false, sm := .new
    ta := { buf := [], escaping := false, inStr := false } }

/-- Printable state names, used in fault payloads. -/
def stateName : LState → String
  | .new => "new" | .docStart => "doc_start" | .docEnd => "doc_end"
  | .objectStart => "object_start" | .objectEnd => "object_end"
  | .arrayStart => "array_start" | .arrayEnd => "array_end"
  | .stringStart => "string_start" | .stringEnd => "string_end"
  | .stringEscaping => "string_escaping"
  | .literal => "literal" | .more => "more"

/-- Printable event names, used in fault payloads. -/
def eventName : SMEvent → String
  | .start => "start" | .close => "end" | .reset => "reset"
  | .tok .lbrace => "lbrace" | .tok .rbrace => "rbrace"
  | .tok .lsquare => "lsquare" | .tok .rsquare => "rsquare"
  | .tok .comma => "comma" | .tok .colon => "colon"
  | .tok .dblquote => "dblquote" | .tok .whitespace => "whitespace"
  | .tok .newline => "newline" | .tok .backslash => "backslash"
  | .tok .char => "char"

/-- `_Lexer._on_after_state_change`, run when the machine moves from
`st.sm` to `s2`: pop the accumulator after leaving `string_end` or
`literal`, fire the structural event of the entered state, and on
entering `doc_end` consume the internal `reset` (back to `new`) and clear
`_started`. -/
def afterChange (st : LexSt) (s2 : LState) : LexSt × List LexEv × Option PErr :=
  let popRes : Option (List LexEv × List Char) × Option PErr :=
    if st.sm = .stringEnd then
      (some ([.str (stripQuotes st.ta.buf)], []), none)
    else if st.sm = .literal ∧ s2 ≠ .literal then
      match parseLit (pyStrip st.ta.buf) with
      | some ev => (some ([ev], []), none)
      | none => (none, some (.invalidLiteral (pyStrip st.ta.buf)))
    else (some ([], st.ta.buf), none)
  match popRes with
  | (_, some e) =>
    ({ st with sm := s2, ta := { st.ta with buf := [] } }, [], some e)
  | (some (evs, buf'), none) =>
    let evs := evs ++ structEv s2
    if s2 = .docEnd then
      ({ st with sm := .new, started := false, ta := { st.ta with buf := buf' } }, evs, none)
    else
      ({ st with sm := s2, ta := { st.ta with buf := buf' } }, evs, none)
  | (none, none) => (st, [], some .indexError)

/-- `StateMachine.consume` for one event, including the lexer's
after-state-change listener.  A pair with no transition is silently
dropped when ignored and raises otherwise. -/
def smEventStep (st : LexSt) (e : SMEvent) : LexSt × List LexEv × Option PErr :=
  match smNext st.sm e with
  | some s2 => afterChange st s2
  | none =>
    if smIgnores st.sm e then (st, [], none)
    else (st, [], some (.smFault (stateName st.sm) (eventName e)))

/-- Processing of one input character: tokenize it, run the text
accumulator listener, then the state machine listener. -/
def lexChar (st : LexSt) (c : Char) : LexSt × List LexEv × Option PErr :=
  let t := tokenize c
  smEventStep { st with ta := taStep st.ta t c } (.tok t)

/-- `_Tokenizer.consume` driving the whole lexer: characters are
processed in order; an exception aborts the remainder of the chunk. -/
def procChars (st : LexSt) : List Char → LexSt × List LexEv × Option PErr
  | [] => (st, [], none)
  | c :: cs =>
    match lexChar st c with
    | (st1, evs, some e) => (st1, evs, some e)
    | (st1, evs, none) =>
      let r := procChars st1 cs
      (r.1, evs ++ r.2.1, r.2.2)

/-- `_Lexer.consume`: after `close` the None internals raise; on the
first call the `start` control event is consumed before tokenizing. -/
def lexConsume (st : LexSt) (data : List Char) : LexSt × List LexEv × Option PErr :=
  if st.closed then (st, [], some .attrError)
  else if st.started then procChars st data
  else
    match smEventStep { st with started := true } .start with
    | (st1, evs, some e) => (st1, evs, some e)
    | (st1, evs, none) =>
      let r := procChars st1 data
      (r.1, evs ++ r.2.1, r.2.2)

/-- `_Lexer.close`: a no-op unless started; otherwise consume the `end`
control event (entering `doc_end` fires the terminal event and resets to
`new`) and clear the internals.  When the `end` event faults the raise
prevents the internals from being cleared. -/
def lexCloseFn (st : LexSt) : LexSt × List LexEv × Option PErr :=
  if st.started then
    match smEventStep st .close with
    | (st1, evs, some e) => (st1, evs, some e)
    | (st1, evs, none) => ({ st1 with started := false, closed := true }, evs, none)
  else (st, [], none)

/-- Run a fresh lexer over one chunk. -/
def lexRun (data : List Char) : LexSt × List LexEv × Option PErr :=
  lexConsume lexInit data

/-- Feed a fresh-started lexer a list of chunks through successive
`consume` calls, stopping at the first exception. -/
def lexFeedChunks (st : LexSt) : List (List Char) → LexSt × List LexEv × Option PErr
  | [] => (st, [], none)
  | c :: cs =>
    match lexConsume st c with
    | (st1, evs, some e) => (st1, evs, some e)
    | (st1, evs, none) =>
      let r := lexFeedChunks st1 cs
      (r.1, evs ++ r.2.1, r.2.2)

/-! ### JSONStreamer -/

/-- `JSONCompositeType`. -/
inductive Composite where
  | OBJECT | ARRAY
deriving DecidableEq, Repr

/-- Scalar payloads of `value`/`element` events
(`string|int|float|boolean|None`); floats keep their raw text. -/
inductive JScalar where
  | s (v : List Char)
  | i (v : Int)
  | f (raw : List Char)
  | b (v : Bool)
  | null
deriving DecidableEq, Repr

/-- The public events of `JSONStreamer`. -/
inductive StrEv where
  | docStart | docEnd | objectStart | objectEnd | arrayStart | arrayEnd
  | key (k : List Char)
  | value (v : JScalar)
  | element (v : JScalar)
deriving DecidableEq, Repr

/-- The mutable core of a `JSONStreamer`: the composite-type stack and
the `_pending_value` flag.  The head of `stack` is the Python list's last
element (its top). -/
structure JCore where
  stack : List Composite
  pending : Bool
deriving DecidableEq, Repr

/-- Scalar payload of a LITERAL lexer event. -/
def scalarOf : LexEv → Option JScalar
  | .str s => some (.s s)
  | .numInt i => some (.i i)
  | .numFloat r => some (.f r)
  | .boolLit b => some (.b b)
  | .nullLit => some .null
  | _ => none

/-- The `JSONStreamer._on_*` handlers, one lexer event at a time. -/
def jsOnLex (core : JCore) (ev : LexEv) : JCore × List StrEv × Option PErr :=
  match ev with
  | .docStart => (core, [.docStart], none)
  | .docEnd => (core, [.docEnd], none)
  | .objectStart =>
    ({ stack := .OBJECT :: core.stack, pending := false }, [.objectStart], none)
  | .objectEnd =>
    match core.stack with
    | [] => (core, [], some .indexError)
    | _ :: r => ({ stack := r, pending := false }, [.objectEnd], none)
  | .arrayStart =>
    ({ core with stack := .ARRAY :: core.stack }, [.arrayStart], none)
  | .arrayEnd =>
    match core.stack with
    | [] => ({ core with pending := false }, [], some .indexError)
    | _ :: r => ({ stack := r, pending := false }, [.arrayEnd], none)
  | lit =>
    match scalarOf lit with
    | none => (core, [], some .typeError)
    | some v =>
      match core.stack with
      | [] => (core, [], some .indexError)
      | .OBJECT :: _ =>
        if core.pending then
          ({ core with pending := false }, [.value v], none)
        else
          match lit with
          | .str s => ({ core with pending := true }, [.key s], none)
          | _ => (core, [], some .keyAssert)
      | .ARRAY :: _ => (core, [.element v], none)

/-- Fold a per-event handler over an event list, aborting at the first
exception and keeping the events delivered before it. -/
def foldEvs {σ α β : Type} (f : σ → α → σ × List β × Option PErr)
    (s : σ) : List α → σ × List β × Option PErr
  | [] => (s, [], none)
  | a :: rest =>
    match f s a with
    | (s1, bs, some e) => (s1, bs, some e)
    | (s1, bs, none) =>
      let r := foldEvs f s1 rest
      (r.1, bs ++ r.2.1, r.2.2)

/-- A whole `JSONStreamer` instance: its lexer (None after `close`) and
its core. -/
structure JSSt where
  lexer : Option LexSt
  core : JCore
deriving DecidableEq, Repr

/-- A fresh `JSONStreamer()`. -/
def jsInit : JSSt := { lexer := some lexInit, core := { stack := [], pending := false } }

/-- Chronological merge of a streamer-layer error with a lexer-layer
error: a listener exception aborts processing before any later lexer
fault is reached. -/
def firstErr : Option PErr → Option PErr → Option PErr
  | some e, _ => some e
  | none, e => e

/-- `JSONStreamer.consume`: delegate to the lexer and map its events
through the handlers. -/
def jsConsume (js : JSSt) (data : List Char) : JSSt × List StrEv × Option PErr :=
  match js.lexer with
  | none => (js, [], some .attrError)
  | some lx =>
    let (lx1, levs, lerr) := lexConsume lx data
    let (core1, sevs, serr) := foldEvs jsOnLex js.core levs
    ({ lexer := some lx1, core := core1 }, sevs, firstErr serr lerr)

/-- `JSONStreamer.close`: close the lexer (firing `doc_end` through the
handlers) and clear the instance; a raise leaves the lexer in place. -/
def jsCloseFn (js : JSSt) : JSSt × List StrEv × Option PErr :=
  match js.lexer with
  | none => (js, [], some .attrError)
  | some lx =>
    let (lx1, levs, lerr) := lexCloseFn lx
    let (core1, sevs, serr) := foldEvs jsOnLex js.core levs
    match firstErr serr lerr with
    | some e => ({ lexer := some lx1, core := core1 }, sevs, some e)
    | none => ({ lexer := none, core := core1 }, sevs, none)

/-- Run a fresh `JSONStreamer` over one chunk. -/
def jsRun (data : List Char) : JSSt × List StrEv × Option PErr :=
  jsConsume jsInit data

/-! ### ObjectStreamer -/

/-- Fully materialized JSON values built by `ObjectStreamer`; `dict`
keeps Python dict insertion order as an association list. -/
inductive JValue where
  | s (v : List Char)
  | i (v : Int)
  | f (raw : List Char)
  | b (v : Bool)
  | null
  | dict (entries : List (List Char × JValue))
  | arr (elems : List JValue)

/-- The public events of `ObjectStreamer`. -/
inductive OSEv where
  | objectStreamStart | objectStreamEnd | arrayStreamStart | arrayStreamEnd
  | pair (k : List Char) (v : JValue)
  | element (v : JValue)

/-- Scalars embed into values. -/
def scalarVal : JScalar → JValue
  | .s v => .s v
  | .i v => .i v
  | .f r => .f r
  | .b v => .b v
  | .null => .null

/-- Python dict assignment on an insertion-ordered association list: an
existing key is updated in place, a new key appended at the end. -/
def assocSet (k : List Char) (v : JValue) :
    List (List Char × JValue) → List (List Char × JValue)
  | [] => [(k, v)]
  | (k0, v0) :: rest =>
    if k0 = k then (k0, v) :: rest else (k0, v0) :: assocSet k v rest

/-- The reconstruction core of an `ObjectStreamer`: `_root`,
`_obj_stack` and `_key_stack`, heads being the Python lists' tops. -/
structure OSCore where
  root : Option Composite
  objStack : List JValue
  keyStack : List (List Char)

/-- `ObjectStreamer._process_deep_entities`, called with a non-empty
`_obj_stack`: pop the finished container and attach it by the
key-depth/container-type tie-break. -/
def processDeep (os : OSCore) : OSCore × List OSEv × Option PErr :=
  match os.objStack with
  | [] => (os, [], some .indexError)
  | o :: rest =>
    let keyDepth := os.keyStack.length
    if keyDepth = 0 then
      match rest with
      | [] => ({ os with objStack := [] }, [.element o], none)
      | top :: rr =>
        match top with
        | .arr l => ({ os with objStack := .arr (l ++ [o]) :: rr }, [], none)
        | _ => (os, [], some .typeError)
    else if keyDepth = 1 then
      match rest with
      | [] =>
        match os.keyStack with
        | k :: ks => ({ os with objStack := [], keyStack := ks }, [.pair k o], none)
        | [] => (os, [], some .indexError)
      | top :: rr =>
        match top with
        | .arr l => ({ os with objStack := .arr (l ++ [o]) :: rr }, [], none)
        | .dict d =>
          match os.keyStack with
          | k :: ks =>
            ({ os with objStack := .dict (assocSet k o d) :: rr, keyStack := ks }, [], none)
          | [] => (os, [], some .indexError)
        | _ => (os, [], some .typeError)
    else
      match rest with
      | [] => (os, [], some .indexError)
      | top :: rr =>
        match top with
        | .arr l => ({ os with objStack := .arr (l ++ [o]) :: rr }, [], none)
        | .dict d =>
          match os.keyStack with
          | k :: ks =>
            ({ os with objStack := .dict (assocSet k o d) :: rr, keyStack := ks }, [], none)
          | [] => (os, [], some .indexError)
        | _ => (os, [], some .typeError)

/-- The `ObjectStreamer._on_*` handlers, one streamer event at a time. -/
def osOnStr (os : OSCore) (ev : StrEv) : OSCore × List OSEv × Option PErr :=
  match ev with
  | .docStart => ({ root := none, objStack := [], keyStack := [] }, [], none)
  | .docEnd => (os, [], none)
  | .objectStart =>
    match os.root with
    | none => ({ os with root := some .OBJECT }, [.objectStreamStart], none)
    | some _ => ({ os with objStack := .dict [] :: os.objStack }, [], none)
  | .arrayStart =>
    match os.root with
    | none => ({ os with root := some .ARRAY }, [.arrayStreamStart], none)
    | some _ => ({ os with objStack := .arr [] :: os.objStack }, [], none)
  | .objectEnd =>
    match os.objStack with
    | [] => (os, [.objectStreamEnd], none)
    | _ => processDeep os
  | .arrayEnd =>
    match os.objStack with
    | [] => (os, [.arrayStreamEnd], none)
    | _ => processDeep os
  | .key k => ({ os with keyStack := k :: os.keyStack }, [], none)
  | .value v =>
    match os.keyStack with
    | [] => (os, [], some .indexError)
    | k :: ks =>
      match os.objStack with
      | [] => ({ os with keyStack := ks }, [.pair k (scalarVal v)], none)
      | .dict d :: rr =>
        ({ os with objStack := .dict (assocSet k (scalarVal v) d) :: rr, keyStack := ks }, [], none)
      | _ => (os, [], some .typeError)
  | .element v =>
    match os.objStack with
    | [] => (os, [.element (scalarVal v)], none)
    | .arr l :: rr => ({ os with objStack := .arr (l ++ [scalarVal v]) :: rr }, [], none)
    | _ => (os, [], some .typeError)

/-- A whole `ObjectStreamer` instance. -/
structure OSSt where
  js : JSSt
  core : OSCore

/-- A fresh `ObjectStreamer()`. -/
def osInit : OSSt :=
  { js := jsInit, core := { root := none, objStack := [], keyStack := [] } }

/-- `ObjectStreamer.consume`. -/
def osConsume (os : OSSt) (data : List Char) : OSSt × List OSEv × Option PErr :=
  let (js1, sevs, jerr) := jsConsume os.js data
  let (core1, oevs, oerr) := foldEvs osOnStr os.core sevs
  ({ js := js1, core := core1 }, oevs, firstErr oerr jerr)

/-- Run a fresh `ObjectStreamer` over one chunk. -/
def osRun (data : List Char) : OSSt × List OSEv × Option PErr :=
  osConsume osInit data

/-! ### v2 streamer with safety limits (modelled from the spec) -/

/-- Modelled from the spec: the v2 `JSONStreamer` core with the
`max_depth` and `max_string_size` construction parameters.  Its
implementation is absent from src (only `src/jsonstreamer/__init__.py`,
`src/tests/test_error_handling.py` and `src/demo_v2_features.py` refer to
it), so it is modelled from spec section 4.4. -/
structure V2Core where
  stack : List Composite
  pending : Bool
  maxDepth : Option Nat
  maxStr : Option Nat
deriving DecidableEq, Repr

/-- Modelled from the spec: the v2 event handlers.  Spec 4.4: on a
structural open, when `max_depth` is set and the stack length already
equals it, fail with a depth-exceeded error before pushing; on a string
literal, when `max_string_size` is set and the string's length exceeds
it, fail with a size-exceeded error, uniformly for keys, values and
elements; everything else as in the v1 handlers. -/
def v2OnLex (core : V2Core) (ev : LexEv) : V2Core × List StrEv × Option PErr :=
  let depthOK : Bool :=
    match core.maxDepth with
    | some d => decide (core.stack.length ≠ d)
    | none => true
  match ev with
  | .docStart => (core, [.docStart], none)
  | .docEnd => (core, [.docEnd], none)
  | .objectStart =>
    if depthOK then
      ({ core with stack := .OBJECT :: core.stack, pending := false }, [.objectStart], none)
    else (core, [], some .depthExceeded)
  | .objectEnd =>
    match core.stack with
    | [] => (core, [], some .indexError)
    | _ :: r => ({ core with stack := r, pending := false }, [.objectEnd], none)
  | .arrayStart =>
    if depthOK then
      ({ core with stack := .ARRAY :: core.stack }, [.arrayStart], none)
    else (core, [], some .depthExceeded)
  | .arrayEnd =>
    match core.stack with
    | [] => ({ core with pending := false }, [], some .indexError)
    | _ :: r => ({ core with stack := r, pending := false }, [.arrayEnd], none)
  | lit =>
    let sizeOK : Bool :=
      match lit, core.maxStr with
      | .str s, some m => decide (s.length ≤ m)
      | _, _ => true
    if sizeOK then
      match scalarOf lit with
      | none => (core, [], some .typeError)
      | some v =>
        match core.stack with
        | [] => (core, [], some .indexError)
        | .OBJECT :: _ =>
          if core.pending then
            ({ core with pending := false }, [.value v], none)
          else
            match lit with
            | .str s => ({ core with pending := true }, [.key s], none)
            | _ => (core, [], some .keyAssert)
        | .ARRAY :: _ => (core, [.element v], none)
    else (core, [], some .sizeExceeded)

/-- Modelled from the spec: run a fresh v2 streamer with the given
limits over one chunk. -/
def v2Run (maxDepth maxStr : Option Nat) (data : List Char) :
    V2Core × List StrEv × Option PErr :=
  let (_, levs, lerr) := lexConsume lexInit data
  let core0 : V2Core := { stack := [], pending := false, maxDepth := maxDepth, maxStr := maxStr }
  let (core1, sevs, serr) := foldEvs v2OnLex core0 levs
  (core1, sevs, firstErr serr lerr)

/-! ### Helpers for stating the claims -/

/-- Characters of a string literal. -/
def S (s : String) : List Char := s.data

/-- A JSON document consisting of one single-element array holding one
quoted string with the given in-quote characters. -/
def arrStrDoc (cs : List Char) : List Char :=
  ['[', '\"'] ++ cs ++ ['\"', ']']

/-- Well-formed pieces of an escaped string body: an ordinary character,
an escaped quote, or an escaped (doubled) backslash. -/
inductive EscItem where
  | ord (c : Char)
  | escQuote
  | escBackslash

/-- Rendering of one escaped-string piece into input characters. -/
def renderItem : EscItem → List Char
  | .ord c => [c]
  | .escQuote => ['\\', '\"']
  | .escBackslash => ['\\', '\\']

/-- Rendering of an escaped string body. -/
def renderItems (l : List EscItem) : List Char :=
  (l.map renderItem).flatten

/-- An ordinary in-string character: not a quote, not a backslash, not a
newline and not a closing bracket (the latter two are dropped by the
accumulator rather than preserved). -/
def ordOK (c : Char) : Prop :=
  c ≠ '\"' ∧ c ≠ '\\' ∧ c ≠ '\n' ∧ c ≠ ']'

/-- All `ord` pieces of an escaped body are ordinary. -/
def itemsOK (l : List EscItem) : Prop :=
  ∀ c, EscItem.ord c ∈ l → ordOK c

/-- The lexer state right after the initial `start` control event of the
first `consume` call. -/
def lexStarted : LexSt :=
  { started := true, closed := false, sm := .docStart
    ta := { buf := [], escaping := false, inStr := false } }

/-- The lexer state inside a string literal, with the given accumulator
buffer: reached after the opening quote of a string. -/
def strSt (buf : List Char) : LexSt :=
  { started := true, closed := false, sm := .stringStart
    ta := { buf := buf, escaping := false, inStr := true } }

/-- The lexer state right after a backslash inside a string. -/
def escSt (buf : List Char) : LexSt :=
  { started := true, closed := false, sm := .stringEscaping
    ta := { buf := buf, escaping := true, inStr := true } }

/-- The lexer state right after the closing quote of a string. -/
def seSt (buf : List Char) : LexSt :=
  { started := true, closed := false, sm := .stringEnd
    ta := { buf := buf, escaping := false, inStr := false } }

/-- The lexer state after a closing `]` at the top level, accumulator
empty. -/
def arrEndSt : LexSt :=
  { started := true, closed := false, sm := .arrayEnd
    ta := { buf := [], escaping := false, inStr := false } }

/-- Whether a non-quote, non-backslash character inside a string is
appended by the accumulator: everything except the `newline` token
(absent from the criteria list) and the `rsquare` token (misspelled
`'rsqaure'` in the criteria list). -/
def keptInStr (c : Char) : Bool := !(c == '\n' || c == ']')

/-- The fixture of the ObjectStreamer reconstruction property: an object
with keys a, b, e, i whose b and e values are nested objects. -/
def c2Input : List Char :=
  S "\x7b\"a\":8,\"b\":\x7b\"c\":\x7b\"d\":9\x7d\x7d,\"e\":\x7b\"f\":\x7b\"g\":10,\"h\":[1,2,3]\x7d\x7d,\"i\":11\x7d"

/-- An object whose value string contains a closing bracket. -/
def c4Input : List Char := S "\x7b\"a\":\"x]y\"\x7d"

/-- The four-deep nested object of the depth-limit property. -/
def c5Input : List Char :=
  S "\x7b\"a\": \x7b\"b\": \x7b\"c\": \x7b\"d\": 1\x7d\x7d\x7d\x7d"

/-- Two whitespace-separated top-level JSON objects in one stream. -/
def c7Input : List Char := S "\x7b\"a\":1\x7d \x7b\"b\":2\x7d"

/-- An object whose value string contains a closing bracket and a raw
newline. -/
def c10Input : List Char := S "\x7b\"a\":\"x]\ny\"\x7d"

/-! ## Helper lemmas -/

/-- No token event transitions into `doc_end`: only the `end` control
event fired by `close` does. -/
theorem smNext_tok_ne_docEnd (s : LState) (t : TokName) :
    smNext s (.tok t) ≠ some LState.docEnd := by
  cases s <;> cases t <;> decide

/-- Unless the machine enters `doc_end`, the after-state-change listener
leaves `_started` and the closed flag untouched. -/
theorem afterChange_flags (st : LexSt) (s2 : LState) (h : s2 ≠ LState.docEnd) :
    ((afterChange st s2).1).started = st.started ∧
      ((afterChange st s2).1).closed = st.closed := by
  unfold afterChange
  by_cases h1 : st.sm = LState.stringEnd
  · simp [h1, h]
  · by_cases h2 : st.sm = LState.literal ∧ s2 ≠ LState.literal
    · simp [h1, h2]
      cases parseLit (pyStrip st.ta.buf) <;> simp [h]
    · simp [h1, h2, h]

/-- A token event never changes `_started` or the closed flag. -/
theorem smEventStep_tok_flags (st : LexSt) (t : TokName) :
    ((smEventStep st (.tok t)).1).started = st.started ∧
      ((smEventStep st (.tok t)).1).closed = st.closed := by
  unfold smEventStep
  cases h : smNext st.sm (.tok t) with
  | none => dsimp only; split <;> exact ⟨rfl, rfl⟩
  | some s2 =>
    dsimp only
    have hne : s2 ≠ LState.docEnd := by
      intro he; subst he; exact smNext_tok_ne_docEnd st.sm t h
    exact afterChange_flags st s2 hne

/-- Character processing never changes `_started` or the closed flag. -/
theorem lexChar_flags (st : LexSt) (c : Char) :
    ((lexChar st c).1).started = st.started ∧
      ((lexChar st c).1).closed = st.closed :=
  smEventStep_tok_flags { st with ta := taStep st.ta (tokenize c) c } (tokenize c)

/-- Chunk processing never changes `_started` or the closed flag. -/
theorem procChars_flags (cs : List Char) (st : LexSt) :
    ((procChars st cs).1).started = st.started ∧
      ((procChars st cs).1).closed = st.closed := by
  induction cs generalizing st with
  | nil => simp [procChars]
  | cons c cs ih =>
    unfold procChars
    cases h : lexChar st c with
    | mk st1 r =>
      have hf := lexChar_flags st c
      rw [h] at hf
      cases r with
      | mk evs err =>
        cases err with
        | some e => simpa using hf
        | none =>
          dsimp only
          have h2 := ih st1
          exact ⟨h2.1.trans hf.1, h2.2.trans hf.2⟩

/-- Splitting an error-free run of characters at any point composes. -/
theorem procChars_append_ok {st st1 : LexSt} {evs : List LexEv} (xs ys : List Char)
    (h : procChars st xs = (st1, evs, none)) :
    procChars st (xs ++ ys) =
      ((procChars st1 ys).1, evs ++ (procChars st1 ys).2.1, (procChars st1 ys).2.2) := by
  induction xs generalizing st evs with
  | nil =>
    simp only [procChars] at h
    injection h with h1 h2
    injection h2 with h2 h3
    subst h1; subst h2
    simp [procChars]
  | cons c cs ih =>
    cases hc : lexChar st c with
    | mk stA r =>
      obtain ⟨evsA, errA⟩ := r
      cases errA with
      | some e =>
        simp only [procChars, hc] at h
        exact absurd h (by simp)
      | none =>
        cases hr : procChars stA cs with
        | mk stB r2 =>
          obtain ⟨evsB, errB⟩ := r2
          simp only [procChars, hc, hr, Prod.mk.injEq] at h
          obtain ⟨h1, h2, h3⟩ := h
          subst h1; subst h2
          cases errB with
          | some e => exact absurd h3 (by simp)
          | none =>
            simp only [List.cons_append, procChars, hc, List.append_eq]
            rw [ih hr]
            simp [List.append_assoc]

/-- A character-level exception inside a chunk drops the remainder of
the input. -/
theorem procChars_append_err {st st1 : LexSt} {evs : List LexEv} {e : PErr}
    (xs ys : List Char) (h : procChars st xs = (st1, evs, some e)) :
    procChars st (xs ++ ys) = (st1, evs, some e) := by
  induction xs generalizing st evs with
  | nil => simp [procChars] at h
  | cons c cs ih =>
    cases hc : lexChar st c with
    | mk stA r =>
      obtain ⟨evsA, errA⟩ := r
      cases errA with
      | some e2 =>
        simp only [procChars, hc] at h
        simp only [List.cons_append, procChars, hc]
        exact h
      | none =>
        cases hr : procChars stA cs with
        | mk stB r2 =>
          obtain ⟨evsB, errB⟩ := r2
          simp only [procChars, hc, hr, Prod.mk.injEq] at h
          obtain ⟨h1, h2, h3⟩ := h
          subst h1; subst h2
          cases errB with
          | none => exact absurd h3 (by simp)
          | some e3 =>
            obtain rfl : e3 = e := by
              injection h3
            simp only [List.cons_append, procChars, hc, List.append_eq]
            rw [ih hr]

/-- On a started, not-yet-closed instance, `consume` is plain character
processing. -/
theorem lexConsume_started {st : LexSt} (h1 : st.started = true)
    (h2 : st.closed = false) (d : List Char) :
    lexConsume st d = procChars st d := by
  simp [lexConsume, h1, h2]

/-- Feeding chunks one `consume` call at a time equals processing their
concatenation, for a started instance and error-free input. -/
theorem feed_eq_proc (chunks : List (List Char)) (st : LexSt)
    (hs : st.started = true) (hc : st.closed = false)
    (hok : (procChars st chunks.flatten).2.2 = none) :
    lexFeedChunks st chunks = procChars st chunks.flatten := by
  induction chunks generalizing st with
  | nil => simp [lexFeedChunks, procChars]
  | cons c cs ih =>
    have hflat : (c :: cs).flatten = c ++ cs.flatten := rfl
    cases h1 : procChars st c with
    | mk st1 r =>
      obtain ⟨evs1, err1⟩ := r
      cases err1 with
      | some e =>
        exfalso
        have hbad := procChars_append_err c cs.flatten h1
        rw [hflat, hbad] at hok
        simp at hok
      | none =>
        have hdec := procChars_append_ok c cs.flatten h1
        have hs1 : st1.started = true := by
          have hp := (procChars_flags c st).1
          rw [h1] at hp
          simpa [hs] using hp
        have hc1 : st1.closed = false := by
          have hp := (procChars_flags c st).2
          rw [h1] at hp
          simpa [hc] using hp
        have hok1 : (procChars st1 cs.flatten).2.2 = none := by
          rw [hflat, hdec] at hok
          simpa using hok
        simp only [lexFeedChunks]
        rw [lexConsume_started hs hc, h1]
        dsimp only
        rw [ih st1 hs1 hc1 hok1, hflat, hdec]

/-- The first `consume` call of a fresh lexer fires `doc_start` via the
`start` control event and then processes the chunk from `lexStarted`. -/
theorem lexConsume_init (d : List Char) :
    lexConsume lexInit d =
      ((procChars lexStarted d).1, .docStart :: (procChars lexStarted d).2.1,
        (procChars lexStarted d).2.2) := rfl

/-! ## C1: chunk invariance -/

/-- C1.  Chunk-invariance: for every input text `T` whose single-call
processing by a fresh `_Lexer` raises no exception, and every
partitioning of `T` into chunks (at least one, possibly empty), feeding
the chunks in successive `consume` calls produces exactly the same final
state, ordered event sequence and (absent) error as feeding `T` in one
`consume` call. -/
theorem chunk_invariance (T : List Char) (chunks : List (List Char))
    (hcat : chunks.flatten = T) (hne : chunks ≠ [])
    (hok : (lexConsume lexInit T).2.2 = none) :
    lexFeedChunks lexInit chunks = lexConsume lexInit T := by
  subst hcat
  obtain ⟨c, cs, rfl⟩ : ∃ c cs, chunks = c :: cs := by
    cases chunks with
    | nil => exact absurd rfl hne
    | cons c cs => exact ⟨c, cs, rfl⟩
  have hok' : (procChars lexStarted ((c :: cs).flatten)).2.2 = none := by
    rw [lexConsume_init] at hok
    simpa using hok
  have hflat : (c :: cs).flatten = c ++ cs.flatten := rfl
  cases h1 : procChars lexStarted c with
  | mk st1 r =>
    obtain ⟨evs1, err1⟩ := r
    cases err1 with
    | some e =>
      exfalso
      have hbad := procChars_append_err c cs.flatten h1
      rw [hflat, hbad] at hok'
      simp at hok'
    | none =>
      have hdec := procChars_append_ok c cs.flatten h1
      have hs1 : st1.started = true := by
        have hp := (procChars_flags c lexStarted).1
        rw [h1] at hp
        simpa [lexStarted] using hp
      have hc1 : st1.closed = false := by
        have hp := (procChars_flags c lexStarted).2
        rw [h1] at hp
        simpa [lexStarted] using hp
      have hok1 : (procChars st1 cs.flatten).2.2 = none := by
        rw [hflat, hdec] at hok'
        simpa using hok'
      simp only [lexFeedChunks]
      rw [lexConsume_init c, h1]
      dsimp only
      rw [feed_eq_proc cs st1 hs1 hc1 hok1]
      rw [lexConsume_init, hflat, hdec]
      simp

/-- Witness for C1 at the text `[1,2]` split after the first two
characters. -/
theorem chunk_invariance_witness :
    [S "[1", S ",2]"].flatten = S "[1,2]" ∧
      [S "[1", S ",2]"] ≠ ([] : List (List Char)) ∧
      (lexConsume lexInit (S "[1,2]")).2.2 = none ∧
      lexFeedChunks lexInit [S "[1", S ",2]"] = lexConsume lexInit (S "[1,2]") :=
  ⟨rfl, by simp, rfl,
    chunk_invariance (S "[1,2]") [S "[1", S ",2]"] rfl (by simp) rfl⟩

/-! ## C2: ObjectStreamer reconstruction -/

/-- C2.  Feeding the nested fixture to a fresh `ObjectStreamer` fires
exactly `object_stream_start`, the four top-level pairs in input order
(with the b and e values fully materialized), and `object_stream_end` -
no other pair or element events and no error. -/
theorem object_streamer_reconstruction :
    (osRun c2Input).2 =
      ([OSEv.objectStreamStart,
        OSEv.pair (S "a") (JValue.i 8),
        OSEv.pair (S "b") (JValue.dict [(S "c", JValue.dict [(S "d", JValue.i 9)])]),
        OSEv.pair (S "e")
          (JValue.dict [(S "f",
            JValue.dict [(S "g", JValue.i 10),
                         (S "h", JValue.arr [JValue.i 1, JValue.i 2, JValue.i 3])])]),
        OSEv.pair (S "i") (JValue.i 11),
        OSEv.objectStreamEnd], none) := rfl

/-! ## C4: in-string character preservation (code bug) -/

/-- C4.  Evaluation at the failing input: the value string `x]y` is
emitted as `xy` - the `]` inside the quoted string is accepted by the
state machine but dropped by the accumulator, because the in-string
criteria list misspells `rsquare` as `'rsqaure'`.  The claim (and spec
4.2) requires bracket characters inside strings to be appended verbatim. -/
theorem rsquare_dropped_in_string :
    (jsRun c4Input).2 =
      ([StrEv.docStart, StrEv.objectStart, StrEv.key (S "a"),
        StrEv.value (JScalar.s (S "xy")), StrEv.objectEnd], none) ∧
      S "xy" ≠ S "x]y" := ⟨rfl, by decide⟩

/-! ## C5: depth limit (modelled from the spec) -/

/-- C5.  In the spec-modelled v2 streamer: on every structural open with
`max_depth` set and the stack length already equal to it, the handler
fails with the depth-exceeded error before pushing (the core is
unchanged); and the four-deep fixture raises the depth error with
`max_depth=3` while succeeding with `max_depth=4` or no limit. -/
theorem depth_limit :
    (∀ (core : V2Core) (d : Nat), core.maxDepth = some d → core.stack.length = d →
      v2OnLex core .objectStart = (core, [], some .depthExceeded) ∧
      v2OnLex core .arrayStart = (core, [], some .depthExceeded)) ∧
    (v2Run (some 3) none c5Input).2.2 = some PErr.depthExceeded ∧
    (v2Run (some 4) none c5Input).2.2 = none ∧
    (v2Run none none c5Input).2.2 = none := by
  refine ⟨?_, rfl, rfl, rfl⟩
  intro core d h1 h2
  constructor <;> simp [v2OnLex, h1, h2]

/-- Witness for C5 at a core whose stack is already at the limit. -/
theorem depth_limit_witness :
    v2OnLex { stack := [.OBJECT], pending := false, maxDepth := some 1, maxStr := none }
        .objectStart =
      ({ stack := [.OBJECT], pending := false, maxDepth := some 1, maxStr := none }, [],
        some .depthExceeded) :=
  (depth_limit.1
    { stack := [.OBJECT], pending := false, maxDepth := some 1, maxStr := none } 1 rfl rfl).1

/-! ## C7: multi-document mode (corrected) -/

/-- Counterexample to C7.  Feeding the two whitespace-separated
documents in one continuous stream does not produce two
`doc_start`/…/`doc_end` cycles: after the first document the machine
rests in `object_end`, the second document's opening brace self-loops
there and fires a spurious `object_end`, and its quote character then
faults; no `doc_end` is ever fired. -/
theorem multi_document_single_stream_fails :
    (lexRun c7Input).2 =
      ([LexEv.docStart, LexEv.objectStart, LexEv.str (S "a"), LexEv.numInt 1,
        LexEv.objectEnd, LexEv.objectEnd],
        some (PErr.smFault "object_end" "dblquote")) ∧
      (lexRun c7Input).2.1.count LexEv.docEnd = 0 := ⟨rfl, rfl⟩

/-- Entering `doc_end` via the `end` control event (the only way in)
fires `doc_end`, consumes the internal `reset` back to `new` and clears
`_started`. -/
theorem smEventStep_close (st : LexSt)
    (h : st.sm = LState.new ∨ st.sm = LState.objectEnd ∨ st.sm = LState.arrayEnd) :
    smEventStep st .close = ({ st with sm := .new, started := false }, [LexEv.docEnd], none) := by
  obtain ⟨sd, cl, sm, ta⟩ := st
  dsimp only at h
  rcases h with h | h | h <;> (subst h; rfl)

/-- C7 (amended).  The reset-on-doc-end mechanism itself is real: on
entering `doc_end` the lexer fires the terminal event, resets the
machine to `new` and clears `_started`.  But `doc_end` is reachable only
through the `end` event of `close()`, so a single continuous stream of
two documents faults instead of producing two cycles (see the
counterexample). -/
theorem reset_on_doc_end (st : LexSt)
    (h : st.sm = LState.new ∨ st.sm = LState.objectEnd ∨ st.sm = LState.arrayEnd) :
    smEventStep st .close = ({ st with sm := .new, started := false }, [LexEv.docEnd], none) :=
  smEventStep_close st h

/-- Witness for C7's amended theorem at the state reached after one
complete document. -/
theorem reset_on_doc_end_witness :
    smEventStep (lexRun (S "\x7b\"a\":1\x7d")).1 .close =
      ({ started := false, closed := false, sm := .new
         ta := { buf := [], escaping := false, inStr := false } }, [LexEv.docEnd], none) :=
  reset_on_doc_end (lexRun (S "\x7b\"a\":1\x7d")).1 (Or.inr (Or.inl rfl))

/-! ## C9: close semantics (corrected) -/

/-- Counterexample to C9.  On a `JSONStreamer` on which `consume` was
never called, `close()` fires nothing at all: the lexer was never
started, so `_Lexer.close` is a no-op and no `doc_end` is delivered. -/
theorem close_without_consume_fires_nothing :
    jsCloseFn jsInit = ({ lexer := none, core := { stack := [], pending := false } }, [], none) ∧
      (jsCloseFn jsInit).2.1.count StrEv.docEnd = 0 := ⟨rfl, rfl⟩

/-- `_Lexer.close` on a started instance whose state admits the `end`
transition fires exactly `doc_end` and clears the instance. -/
theorem lexCloseFn_closable (st : LexSt) (hs : st.started = true)
    (h : st.sm = LState.new ∨ st.sm = LState.objectEnd ∨ st.sm = LState.arrayEnd) :
    lexCloseFn st =
      ({ st with sm := .new, started := false, closed := true }, [LexEv.docEnd], none) := by
  have h1 := smEventStep_close st h
  simp [lexCloseFn, hs, h1]

/-- C9 (amended).  On an instance on which `consume` has been called and
whose lexer rests in a closable state, the first `close()` fires the
terminal `doc_end` exactly once, and a second `close()` fires no
`doc_end` at all (it raises on the cleared instance).  On a
never-consumed instance the first `close()` already fires nothing (see
the counterexample). -/
theorem close_semantics (js : JSSt) (lx : LexSt)
    (hl : js.lexer = some lx) (hs : lx.started = true)
    (hsm : lx.sm = LState.new ∨ lx.sm = LState.objectEnd ∨ lx.sm = LState.arrayEnd) :
    (jsCloseFn js).2.1 = [StrEv.docEnd] ∧
      (jsCloseFn (jsCloseFn js).1).2 = ([], some PErr.attrError) := by
  have h1 := lexCloseFn_closable lx hs hsm
  have h2 : jsCloseFn js = ({ lexer := none, core := js.core }, [StrEv.docEnd], none) := by
    simp [jsCloseFn, hl, h1, foldEvs, jsOnLex, firstErr]
  rw [h2]
  exact ⟨rfl, rfl⟩

/-- Witness for C9's amended theorem on an instance that consumed one
complete document. -/
theorem close_semantics_witness :
    (jsCloseFn (jsConsume jsInit (S "\x7b\"a\":1\x7d")).1).2.1 = [StrEv.docEnd] ∧
      (jsCloseFn (jsCloseFn (jsConsume jsInit (S "\x7b\"a\":1\x7d")).1).1).2 =
        ([], some PErr.attrError) :=
  close_semantics _
    { started := true, closed := false, sm := .objectEnd
      ta := { buf := [], escaping := false, inStr := false } }
    rfl rfl (Or.inr (Or.inl rfl))

/-! ## In-string processing lemmas -/

/-- Expose the token of a character in `lexChar`. -/
theorem lexChar_eq_tok (st : LexSt) (c : Char) (t : TokName) (h : tokenize c = t) :
    lexChar st c = smEventStep { st with ta := taStep st.ta t c } (.tok t) := by
  unfold lexChar
  rw [h]

/-- One non-quote, non-backslash character inside a string: the state
machine loops on `string_start`, no event fires, and the accumulator
appends the character unless its token is `newline` or `rsquare`. -/
theorem lexChar_strState (buf : List Char) (c : Char) (h1 : c ≠ '\"') (h2 : c ≠ '\\') :
    lexChar (strSt buf) c =
      (strSt (buf ++ (if keptInStr c then [c] else [])), [], none) := by
  by_cases e1 : c = '{'
  · subst e1; rfl
  by_cases e2 : c = '}'
  · subst e2; rfl
  by_cases e3 : c = '['
  · subst e3; rfl
  by_cases e4 : c = ']'
  · subst e4
    have hstep : lexChar (strSt buf) ']' = (strSt buf, [], none) := rfl
    simp [hstep, keptInStr]
  by_cases e5 : c = ','
  · subst e5; rfl
  by_cases e6 : c = ':'
  · subst e6; rfl
  by_cases e7 : c = ' '
  · subst e7; rfl
  by_cases e8 : c = '\n'
  · subst e8
    have hstep : lexChar (strSt buf) '\n' = (strSt buf, [], none) := rfl
    simp [hstep, keptInStr]
  have ht : tokenize c = .char := by
    simp [tokenize, e1, e2, e3, e4, e5, e6, h1, e7, e8, h2]
  have hif : (if keptInStr c then [c] else []) = [c] := by
    simp [keptInStr, e8, e4]
  rw [hif, lexChar_eq_tok (strSt buf) c .char ht]
  rfl

/-- A run of non-quote, non-backslash characters inside a string loops
in place, firing nothing; the accumulator collects exactly the kept
characters. -/
theorem procChars_string (cs : List Char) (buf : List Char)
    (h : ∀ c ∈ cs, c ≠ '\"' ∧ c ≠ '\\') :
    procChars (strSt buf) cs =
      (strSt (buf ++ cs.filter keptInStr), [], none) := by
  induction cs generalizing buf with
  | nil => simp [procChars]
  | cons c cs ih =>
    obtain ⟨hc1, hc2⟩ := h c (List.mem_cons_self c cs)
    have hstep := lexChar_strState buf c hc1 hc2
    simp only [procChars, hstep]
    rw [ih _ (fun x hx => h x (List.mem_cons_of_mem c hx))]
    cases hk : keptInStr c <;>
      simp [List.filter_cons, hk, List.append_assoc]

/-- A backslash inside a string enters `string_escaping` and buffers
nothing yet. -/
theorem lexChar_backslash_str (buf : List Char) :
    lexChar (strSt buf) '\\' = (escSt buf, [], none) := rfl

/-- An escaped quote resolves back to `string_start`, appending the
two-character sequence verbatim. -/
theorem lexChar_escQuote (buf : List Char) :
    lexChar (escSt buf) '\"' = (strSt (buf ++ ['\\', '\"']), [], none) := rfl

/-- A doubled backslash resolves back to `string_start`, appending the
two-character sequence verbatim. -/
theorem lexChar_escBackslash (buf : List Char) :
    lexChar (escSt buf) '\\' = (strSt (buf ++ ['\\', '\\']), [], none) := rfl

/-- A well-formed escaped body (ordinary characters, escaped quotes,
doubled backslashes) is accumulated verbatim, firing nothing. -/
theorem procChars_items (items : List EscItem) (buf : List Char) (h : itemsOK items) :
    procChars (strSt buf) (renderItems items) =
      (strSt (buf ++ renderItems items), [], none) := by
  induction items generalizing buf with
  | nil => simp [renderItems, procChars]
  | cons i rest ih =>
    have hrest : itemsOK rest := fun c hc => h c (List.mem_cons_of_mem _ hc)
    have hri : renderItems (i :: rest) = renderItem i ++ renderItems rest := by
      simp [renderItems]
    cases i with
    | ord c =>
      obtain ⟨hq, hb, hn, hr⟩ := h c (List.mem_cons_self _ _)
      have hkept : keptInStr c = true := by simp [keptInStr, hn, hr]
      have hstep := lexChar_strState buf c hq hb
      rw [hkept] at hstep
      rw [hri]
      show procChars (strSt buf) (c :: renderItems rest) = _
      simp only [procChars, hstep, if_true]
      rw [ih _ hrest]
      simp [renderItems, renderItem, List.append_assoc]
    | escQuote =>
      rw [hri]
      show procChars (strSt buf) ('\\' :: '\"' :: renderItems rest) = _
      simp only [procChars, lexChar_backslash_str, lexChar_escQuote]
      rw [ih _ hrest]
      simp [renderItems, renderItem, List.append_assoc]
    | escBackslash =>
      rw [hri]
      show procChars (strSt buf) ('\\' :: '\\' :: renderItems rest) = _
      simp only [procChars, lexChar_backslash_str, lexChar_escBackslash]
      rw [ih _ hrest]
      simp [renderItems, renderItem, List.append_assoc]

/-- Trailing strip is the identity when the last character is not
whitespace. -/
theorem dropTrail_concat_nospace (l : List Char) (c : Char) (h : isPySpace c = false) :
    dropTrail isPySpace (l ++ [c]) = l ++ [c] := by
  unfold dropTrail
  rw [List.reverse_append]
  simp [List.dropWhile_cons, h]

/-- `str.strip()` is the identity on a quoted buffer. -/
theorem pyStrip_quoted (out : List Char) :
    pyStrip ('\"' :: out ++ ['\"']) = '\"' :: out ++ ['\"'] := by
  have hq : isPySpace '\"' = false := rfl
  have h1 : List.dropWhile isPySpace (('\"' :: out) ++ ['\"']) = ('\"' :: out) ++ ['\"'] := by
    rw [List.cons_append]
    simp [List.dropWhile_cons, hq]
  unfold pyStrip
  rw [h1]
  exact dropTrail_concat_nospace ('\"' :: out) '\"' hq

/-- Peeling quotes off a quoted buffer recovers its content. -/
theorem stripQuotes_quoted (out : List Char) :
    stripQuotes ('\"' :: out ++ ['\"']) = out := by
  unfold stripQuotes
  rw [pyStrip_quoted]
  simp [List.dropLast_concat]

/-- Closing quote of a string: enter `string_end`, append the quote,
leave string mode. -/
theorem lexChar_closeQuote (buf : List Char) :
    lexChar (strSt buf) '\"' = (seSt (buf ++ ['\"']), [], none) := rfl

/-- Closing `]` after a string at array level: pop the accumulator,
fire the STRING literal (quotes stripped) then `array_end`. -/
theorem lexChar_rsquare_seSt (buf : List Char) :
    lexChar (seSt buf) ']' =
      (arrEndSt, [.str (stripQuotes buf), .arrayEnd], none) := rfl

/-- Any single-document text consisting of one array holding one string
whose in-quote characters accumulate verbatim to `out` lexes to exactly
`doc_start, array_start, STRING out, array_end`. -/
theorem lexConsume_arrStrDoc (mid out : List Char)
    (hmid : procChars (strSt ['\"']) mid = (strSt ('\"' :: out), [], none)) :
    lexConsume lexInit (arrStrDoc mid) =
      (arrEndSt, [.docStart, .arrayStart, .str out, .arrayEnd], none) := by
  rw [lexConsume_init]
  have hdoc : arrStrDoc mid = '[' :: '\"' :: (mid ++ ['\"', ']']) := by
    simp [arrStrDoc]
  rw [hdoc]
  have s1 : lexChar lexStarted '[' =
      ((⟨true, false, .arrayStart, ⟨[], false, false⟩⟩ : LexSt), [.arrayStart], none) := rfl
  have s2 : lexChar (⟨true, false, .arrayStart, ⟨[], false, false⟩⟩ : LexSt) '\"' =
      (strSt ['\"'], [], none) := rfl
  have s3 : procChars (strSt ('\"' :: out)) ['\"', ']'] =
      (arrEndSt, [.str out, .arrayEnd], none) := by
    have c2 := lexChar_rsquare_seSt ('\"' :: out ++ ['\"'])
    rw [stripQuotes_quoted] at c2
    simp only [procChars, lexChar_closeQuote, c2]
    rfl
  have hdec := procChars_append_ok mid ['\"', ']'] hmid
  simp only [procChars, s1, s2]
  rw [hdec, s3]
  simp

/-- Expose the lexer result inside a `v2Run`. -/
theorem v2Run_eq (d s : Option Nat) (data : List Char) (lst : LexSt)
    (levs : List LexEv) (lerr : Option PErr)
    (h : lexConsume lexInit data = (lst, levs, lerr)) :
    v2Run d s data =
      ((foldEvs v2OnLex
          { stack := [], pending := false, maxDepth := d, maxStr := s } levs).1,
        (foldEvs v2OnLex
          { stack := [], pending := false, maxDepth := d, maxStr := s } levs).2.1,
        firstErr
          (foldEvs v2OnLex
            { stack := [], pending := false, maxDepth := d, maxStr := s } levs).2.2
          lerr) := by
  unfold v2Run
  rw [h]

/-! ## C8: escape round trip -/

/-- C8.  For every string body built from ordinary characters, escaped
quotes and doubled backslashes, the lexer emits the STRING literal with
all escape sequences preserved verbatim (backslashes kept, never
decoded) and only the surrounding quote characters stripped. -/
theorem escape_round_trip (items : List EscItem) (h : itemsOK items) :
    lexConsume lexInit (arrStrDoc (renderItems items)) =
      (arrEndSt, [.docStart, .arrayStart, .str (renderItems items), .arrayEnd], none) := by
  apply lexConsume_arrStrDoc
  have hmid := procChars_items items ['\"'] h
  simpa using hmid

/-- Witness for C8 at the body `a\"b` followed by a doubled backslash
(rendered `a\"\\b`). -/
theorem escape_round_trip_witness :
    lexConsume lexInit (arrStrDoc ['a', '\\', '\"', '\\', '\\', 'b']) =
      (arrEndSt,
        [.docStart, .arrayStart, .str ['a', '\\', '\"', '\\', '\\', 'b'], .arrayEnd],
        none) := by
  have h : itemsOK [.ord 'a', .escQuote, .escBackslash, .ord 'b'] := by
    intro c hc
    simp only [List.mem_cons, List.not_mem_nil, or_false] at hc
    rcases hc with h | h | h | h
    · obtain rfl : c = 'a' := by injection h
      refine ⟨?_, ?_, ?_, ?_⟩ <;> decide
    · exact absurd h (by simp)
    · exact absurd h (by simp)
    · obtain rfl : c = 'b' := by injection h
      refine ⟨?_, ?_, ?_, ?_⟩ <;> decide
  exact escape_round_trip [.ord 'a', .escQuote, .escBackslash, .ord 'b'] h

/-! ## C10: raw newlines in strings (corrected) -/

/-- Counterexample to C10.  For the string `x]` + newline + `y` the
emitted value is `xy`, not the claimed newline-free `x]y`: the `]` is
also dropped (the `'rsqaure'` misspelling), so the claim's universally
quantified equality fails. -/
theorem newline_removal_counterexample :
    (jsRun c10Input).2 =
      ([StrEv.docStart, StrEv.objectStart, StrEv.key (S "a"),
        StrEv.value (JScalar.s (S "xy")), StrEv.objectEnd], none) ∧
      S "xy" ≠ (S "x]\ny").filter (· != '\n') := ⟨rfl, by decide⟩

/-- C10 (amended).  A raw newline inside a quoted string is accepted by
the state machine (`string_start` loops on the `newline` token) but
never appended by the accumulator, so for every string of characters
that are not quotes, backslashes or closing brackets (`]` is separately
dropped by the `'rsqaure'` misspelling) the emitted STRING value is the
string with all newline characters removed. -/
theorem newline_filtered_in_strings (cs : List Char)
    (h : ∀ c ∈ cs, c ≠ '\"' ∧ c ≠ '\\' ∧ c ≠ ']') :
    lexConsume lexInit (arrStrDoc cs) =
      (arrEndSt, [.docStart, .arrayStart, .str (cs.filter (· != '\n')), .arrayEnd],
        none) := by
  have hfilter : cs.filter keptInStr = cs.filter (· != '\n') := by
    apply List.filter_congr
    intro c hc
    have h3 := (h c hc).2.2
    have hbeq : (c == ']') = false := by
      simp [h3]
    simp [keptInStr, bne, hbeq]
  apply lexConsume_arrStrDoc
  have hmid := procChars_string cs ['\"'] (fun c hc => ⟨(h c hc).1, (h c hc).2.1⟩)
  rw [hfilter] at hmid
  simpa using hmid

/-- Witness for C10's amended theorem at the string `a` + newline + `b`. -/
theorem newline_filtered_witness :
    lexConsume lexInit (arrStrDoc ['a', '\n', 'b']) =
      (arrEndSt, [.docStart, .arrayStart, .str ['a', 'b'], .arrayEnd], none) := by
  have h : ∀ c ∈ (['a', '\n', 'b'] : List Char), c ≠ '\"' ∧ c ≠ '\\' ∧ c ≠ ']' := by
    intro c hc
    simp only [List.mem_cons, List.not_mem_nil, or_false] at hc
    rcases hc with rfl | rfl | rfl <;> (refine ⟨?_, ?_, ?_⟩ <;> decide)
  exact newline_filtered_in_strings ['a', '\n', 'b'] h

/-! ## C6: string size limit (modelled from the spec) -/

/-- C6.  In the spec-modelled v2 streamer: (a) for every streamer state
with `max_string_size` set and every string literal longer than the
limit, the handler fails with the size-exceeded error - uniformly,
before the key/value/element dispatch; (b) end to end, an array whose
single string element consists of ordinary characters raises the size
error exactly when its length exceeds the limit (so a string of exactly
the limit length does not raise); (c) concretely, an oversized key and
an oversized value raise, and an exactly-at-the-limit value does not. -/
theorem string_size_limit :
    (∀ (core : V2Core) (m : Nat) (s : List Char), core.maxStr = some m → m < s.length →
      v2OnLex core (.str s) = (core, [], some PErr.sizeExceeded)) ∧
    (∀ (m : Nat) (cs : List Char), (∀ c ∈ cs, ordOK c) →
      ((v2Run none (some m) (arrStrDoc cs)).2.2 = some PErr.sizeExceeded ↔
        m < cs.length)) ∧
    (v2Run none (some 3) (S "\x7b\"abcd\":1\x7d")).2.2 = some PErr.sizeExceeded ∧
    (v2Run none (some 3) (S "\x7b\"k\":\"abcd\"\x7d")).2.2 = some PErr.sizeExceeded ∧
    (v2Run none (some 3) (S "[\"abc\"]")).2.2 = none := by
  refine ⟨?_, ?_, rfl, rfl, rfl⟩
  · intro core m s h1 h2
    have hsz : decide (s.length ≤ m) = false := by
      simp
      omega
    simp [v2OnLex, h1, hsz]
  · intro m cs h
    have hkeep : cs.filter keptInStr = cs := by
      rw [List.filter_eq_self]
      intro c hc
      obtain ⟨-, -, hn, hr⟩ := h c hc
      simp [keptInStr, hn, hr]
    have hmid := procChars_string cs ['\"'] (fun c hc => ⟨(h c hc).1, (h c hc).2.1⟩)
    rw [hkeep] at hmid
    have hlex := lexConsume_arrStrDoc cs cs (by simpa using hmid)
    rw [v2Run_eq none (some m) _ _ _ _ hlex]
    by_cases hm : cs.length ≤ m
    · have hd : decide (cs.length ≤ m) = true := by simpa using hm
      simp [foldEvs, v2OnLex, firstErr, hd, scalarOf]
      omega
    · have hd : decide (cs.length ≤ m) = false := by simpa using hm
      simp [foldEvs, v2OnLex, firstErr, hd, scalarOf]
      omega

/-- Witness for C6: a three-character string against limit 2 (event
level) and against limits 2 and 3 end to end. -/
theorem string_size_limit_witness :
    v2OnLex { stack := [.ARRAY], pending := false, maxDepth := none, maxStr := some 2 }
        (.str ['a', 'b', 'c']) =
      ({ stack := [.ARRAY], pending := false, maxDepth := none, maxStr := some 2 }, [],
        some PErr.sizeExceeded) ∧
      ((v2Run none (some 2) (arrStrDoc ['a', 'b', 'c'])).2.2 = some PErr.sizeExceeded ↔
        2 < (['a', 'b', 'c'] : List Char).length) := by
  have hord : ∀ c ∈ (['a', 'b', 'c'] : List Char), ordOK c := by
    intro c hc
    simp only [List.mem_cons, List.not_mem_nil, or_false] at hc
    rcases hc with rfl | rfl | rfl <;> (refine ⟨?_, ?_, ?_, ?_⟩ <;> decide)
  exact ⟨string_size_limit.1 _ 2 ['a', 'b', 'c'] rfl (by decide),
    string_size_limit.2.1 2 ['a', 'b', 'c'] hord⟩

/-! ## C3: number typing -/

/-- `splitFirst` finds nothing when no character satisfies the
predicate. -/
theorem splitFirst_none (p : Char → Bool) (l : List Char) (h : ∀ c ∈ l, p c = false) :
    splitFirst p l = (l, none) := by
  induction l with
  | nil => rfl
  | cons c r ih =>
    have hc := h c (List.mem_cons_self _ _)
    simp [splitFirst, hc, ih (fun x hx => h x (List.mem_cons_of_mem _ hx))]

/-- Dropping a leading sign keeps a sublist. -/
theorem stripSign_subset (cs : List Char) : stripSign cs ⊆ cs := by
  cases cs with
  | nil => simp [stripSign]
  | cons c r =>
    simp only [stripSign]
    split
    · exact List.subset_cons_self c r
    · exact fun x hx => hx

/-- A non-digit member falsifies `allDigits`. -/
theorem allDigits_false_of_mem {c : Char} {l : List Char} (hc : c ∈ l)
    (hd : c.isDigit = false) : allDigits l = false := by
  unfold allDigits
  by_contra hcon
  rw [Bool.not_eq_false, List.all_eq_true] at hcon
  have := hcon c hc
  rw [hd] at this
  exact absurd this (by simp)

/-- Python `int()` fails on any literal containing a non-digit other
than a leading sign. -/
theorem intParse_none_of_mem {c : Char} {cs : List Char} (hc : c ∈ cs)
    (h1 : c ≠ '-') (h2 : c ≠ '+') (hd : c.isDigit = false) :
    intParse cs = none := by
  have hmem : c ∈ stripSign cs := by
    cases cs with
    | nil => simp at hc
    | cons c0 r =>
      simp only [stripSign]
      split
      · rename_i hsign
        rcases List.mem_cons.mp hc with rfl | hm
        · exfalso
          rcases Bool.or_eq_true_iff.mp hsign with hs | hs
          · exact h1 (by simpa using hs)
          · exact h2 (by simpa using hs)
        · exact hm
      · exact hc
  have hall := allDigits_false_of_mem hmem hd
  simp [intParse, hall]

/-- The literal-typing rule of the lexer, as a helper: a pattern-matched
literal parses as an integer exactly when it contains neither a dot nor
an exponent marker, else as a float. -/
theorem parseLit_typing (cs : List Char) (hm : numMatch cs = true) :
    (('.' ∈ cs ∨ 'e' ∈ cs ∨ 'E' ∈ cs) → parseLit cs = some (.numFloat cs)) ∧
      (('.' ∉ cs ∧ 'e' ∉ cs ∧ 'E' ∉ cs) → ∃ i : Int, parseLit cs = some (.numInt i)) := by
  constructor
  · intro hmem
    have hip : intParse cs = none := by
      rcases hmem with hd | he | hE
      · exact intParse_none_of_mem hd (by decide) (by decide) (by decide)
      · exact intParse_none_of_mem he (by decide) (by decide) (by decide)
      · exact intParse_none_of_mem hE (by decide) (by decide) (by decide)
    simp [parseLit, hm, hip]
  · rintro ⟨hd, he1, he2⟩
    have hsplitE : splitFirst (fun c => c = 'e' || c = 'E') cs = (cs, none) := by
      apply splitFirst_none
      intro c hcm
      simp only [Bool.or_eq_false_iff, decide_eq_false_iff_not]
      exact ⟨fun hh => he1 (hh ▸ hcm), fun hh => he2 (hh ▸ hcm)⟩
    have hmant : mantBody (stripSign cs) = true := by
      simpa [numMatch, hsplitE] using hm
    have hsplitD : splitFirst (fun c => c = '.') (stripSign cs) = (stripSign cs, none) := by
      apply splitFirst_none
      intro c hcm
      simp only [decide_eq_false_iff_not]
      exact fun hh => hd (hh ▸ stripSign_subset cs hcm)
    have hcond : (decide (stripSign cs ≠ []) && allDigits (stripSign cs)) = true := by
      simpa [mantBody, hsplitD] using hmant
    have hcond2 : (stripSign cs ≠ []) ∧ allDigits (stripSign cs) = true := by
      simpa using hcond
    refine ⟨if cs.head? = some '-' then -(digitsVal (stripSign cs) : Int)
            else (digitsVal (stripSign cs) : Int), ?_⟩
    simp [parseLit, hm, intParse, hcond2.1, hcond2.2]

/-- C3.  Number typing: every bare literal matching the number pattern
is parsed as an integer exactly when its text contains neither `.` nor
`e`/`E`, else as a float; in particular `-123` yields the integer
`-123` (not a float), `-12.5` and `1e10` yield floats, and `0` yields
the integer zero, end to end through the streamer. -/
theorem number_typing :
    (∀ cs : List Char, numMatch cs = true →
      ((('.' ∈ cs ∨ 'e' ∈ cs ∨ 'E' ∈ cs) → parseLit cs = some (.numFloat cs)) ∧
        (('.' ∉ cs ∧ 'e' ∉ cs ∧ 'E' ∉ cs) → ∃ i : Int, parseLit cs = some (.numInt i)))) ∧
    (jsRun (S "[-123]")).2 =
      ([.docStart, .arrayStart, .element (.i (-123)), .arrayEnd], none) ∧
    (jsRun (S "[-12.5]")).2 =
      ([.docStart, .arrayStart, .element (.f (S "-12.5")), .arrayEnd], none) ∧
    (jsRun (S "[1e10]")).2 =
      ([.docStart, .arrayStart, .element (.f (S "1e10")), .arrayEnd], none) ∧
    (jsRun (S "[0]")).2 =
      ([.docStart, .arrayStart, .element (.i 0), .arrayEnd], none) :=
  ⟨parseLit_typing, rfl, rfl, rfl, rfl⟩

/-- Witness for C3 at the matched literals `-123` (integer) and `1e10`
(float). -/
theorem number_typing_witness :
    numMatch (S "-123") = true ∧
      (∃ i : Int, parseLit (S "-123") = some (.numInt i)) ∧
      parseLit (S "1e10") = some (.numFloat (S "1e10")) :=
  ⟨rfl, (number_typing.1 (S "-123") rfl).2 (by decide),
    (number_typing.1 (S "1e10") rfl).1 (by decide)⟩

end JsonStreamer
